import Mathlib

/-!
# Verification of the Aztec benchmark-diff comparison engine

A shallow embedding of `comparison.cjs`, the benchmark comparison engine of
the `aztec-benchmark-diff` repository, together with proofs about the claims
of its specification.

Modelling conventions:
* JavaScript numbers are modelled as exact rationals (`ℚ`).  The benchmark
  documents carry gate counts and gas values, and all arithmetic performed
  on them (`(pr - main) / main`, comparisons against `threshold / 100`) is
  modelled exactly.
* The JavaScript value `Infinity`, which the code only ever produces via the
  explicit `pr > 0 ? Infinity : 0` branches, is modelled by `Option ℚ` with
  `none` standing for `Infinity`.
* `Number.prototype.toLocaleString()` and `Number.prototype.toFixed(1)` are
  modelled for the `en-US` default locale (comma thousands grouping, at most
  three fraction digits for `toLocaleString`), with round-half-away-from-zero
  rounding as prescribed for `toFixed` by ECMA-262 (sign extracted first,
  ties resolved upward on the absolute value).
* JSON documents are modelled by an inductive `Json` type; JavaScript
  property access, optional chaining, nullish coalescing, truthiness and the
  `TypeError`s thrown by calling array/string methods on unsuitable values
  are modelled explicitly.  An uncaught JavaScript exception is modelled as
  `Except.error ()`.
* The filesystem is explicit state: a directory listing (as `readdirSync`
  returns it) and a map from paths to parse results.  `JSON.parse` itself is
  not re-implemented; a file's content is recorded as either an error
  message (read or parse failure) or the parsed `Json` document.
-/

/- Batteries marks the arithmetic on `Rat` `@[irreducible]`, which blocks the
`decide`-based evaluation of the embedding on concrete inputs; restore the
ordinary unfolding behaviour for this file. -/
attribute [local semireducible] Rat.mul Rat.inv Rat.add Rat.sub Rat.ofScientific

/-! ## Models of the JavaScript number-formatting builtins -/

/-- Splits a list into chunks of three (used for thousands grouping of a
reversed digit list). -/
def chunk3 : List Char → List (List Char)
  | [] => []
  | [a] => [[a]]
  | [a, b] => [[a, b]]
  | a :: b :: c :: rest => [a, b, c] :: chunk3 rest

/-- Renders a natural number in decimal with `en-US` comma thousands
grouping, e.g. `1050 ↦ "1,050"`. -/
def jsGroupNat (n : Nat) : String :=
  let ds := (Nat.toDigits 10 n).reverse
  String.mk (List.intercalate [','] ((chunk3 ds).map List.reverse).reverse)

/-- Decimal digits of `n`, left-padded with `'0'` to length three (used for
the fraction part of `toLocaleString`). -/
def pad3 (n : Nat) : List Char :=
  let ds := Nat.toDigits 10 n
  List.replicate (3 - ds.length) '0' ++ ds

/-- Model of `Number.prototype.toLocaleString()` in the `en-US` default
locale on an exact rational: sign, comma-grouped integer part, and at most
three fraction digits (trailing zeros trimmed), rounding half away from
zero. -/
def jsToLocaleString (q : ℚ) : String :=
  let sign := if q < 0 then "-" else ""
  let m : Nat := (⌊|q| * 1000 + 1 / 2⌋).toNat
  let ip := jsGroupNat (m / 1000)
  let fr := m % 1000
  if fr = 0 then sign ++ ip
  else sign ++ ip ++ "." ++ String.mk ((pad3 fr).reverse.dropWhile (· = '0')).reverse

/-- The `toFixed(1)` of a non-negative rational: round to one decimal place
(ties upward) and render as `"<int>.<digit>"`. -/
def jsFixed1Abs (x : ℚ) : String :=
  let n : Nat := (⌊x * 10 + 1 / 2⌋).toNat
  Nat.repr (n / 10) ++ "." ++ Nat.repr (n % 10)

/-- Model of `Number.prototype.toFixed(1)` (ECMA-262: for negative input the
sign is extracted and the absolute value formatted). -/
def jsToFixed1 (q : ℚ) : String :=
  if q < 0 then "-" ++ jsFixed1Abs (-q) else jsFixed1Abs q

/-! ## The numeric core of `comparison.cjs`

`MetricPair` is the `{main, pr}` record the engine builds per metric, and
`Metrics` the per-function record with the three metrics `gates`, `daGas`
and `l2Gas` (source lines 162–166). -/

/-- A `{main, pr}` pair for one metric: `main` is the base-side value, `pr`
the candidate-side value. -/
structure MetricPair where
  main : ℚ
  pr : ℚ
deriving DecidableEq

/-- The per-function metrics record: gate count, DA gas and L2 gas pairs. -/
structure Metrics where
  gates : MetricPair
  daGas : MetricPair
  l2Gas : MetricPair
deriving DecidableEq

/-- `formatDiff` (source lines 24–38): formats the difference between the
base value `main` and the candidate value `pr`, including the percentage
change.  `0.01` and `1` are the source's literal small-change thresholds. -/
def formatDiff (main pr : ℚ) : String :=
  if main = 0 ∧ pr = 0 then ""
  else if main = 0 then "+Inf%"
  else if pr = 0 then "-100%"
  else
    let diff := pr - main
    if diff = 0 then ""
    else
      let pct := diff / main * 100
      let sign := if 0 < diff then "+" else ""
      if |pct| < 1 / 100 ∧ |diff| < 1 then ""
      else sign ++ jsToLocaleString diff ++ " (" ++ sign ++ jsToFixed1 pct ++ "%)"

/-- The "Removed" condition of `getStatusEmoji` (source lines 47–48): all
candidate-side values are zero and some base-side value is positive. -/
def isRemoved (m : Metrics) : Prop :=
  (m.gates.pr = 0 ∧ m.daGas.pr = 0 ∧ m.l2Gas.pr = 0) ∧
    (0 < m.gates.main ∨ 0 < m.daGas.main ∨ 0 < m.l2Gas.main)

instance (m : Metrics) : Decidable (isRemoved m) := by
  unfold isRemoved; infer_instance

/-- The "New" condition of `getStatusEmoji` (source lines 49–50): all
base-side values are zero and some candidate-side value is positive. -/
def isNew (m : Metrics) : Prop :=
  (m.gates.main = 0 ∧ m.daGas.main = 0 ∧ m.l2Gas.main = 0) ∧
    (0 < m.gates.pr ∨ 0 < m.daGas.pr ∨ 0 < m.l2Gas.pr)

instance (m : Metrics) : Decidable (isNew m) := by
  unfold isNew; infer_instance

/-- One metric's fractional change as computed by `getStatusEmoji` (source
lines 56–61): `none` models the JavaScript `Infinity` produced when the base
value is `0` and the candidate value is positive; a zero base with a
non-positive candidate yields `0`; otherwise `(pr - main) / main`. -/
def diffPct (p : MetricPair) : Option ℚ :=
  if p.main = 0 then (if 0 < p.pr then none else some 0)
  else some ((p.pr - p.main) / p.main)

/-- `getStatusEmoji` (source lines 46–75): classifies a function's metric
changes against a threshold percentage, returning one of the five status
emojis. -/
def getStatusEmoji (m : Metrics) (threshold : ℚ) : String :=
  if isRemoved m then "🚮"
  else if isNew m then "🆕"
  else
    let allDiffs := [diffPct m.gates, diffPct m.daGas, diffPct m.l2Gas]
    let metricsDiffs := allDiffs.filterMap id
    let hasInfiniteIncrease := allDiffs.any Option.isNone
    let thresholdDecimal := threshold / 100
    let hasRegression :=
      hasInfiniteIncrease || metricsDiffs.any (fun d => decide (thresholdDecimal < d))
    let hasImprovement := metricsDiffs.any (fun d => decide (d < -thresholdDecimal))
    if hasRegression then "🔴"
    else if hasImprovement then "🟢"
    else "⚪"

/-! ## A model of JSON values and the JavaScript operations used on them

`JSON.parse` output is modelled by `Json`.  Property access, optional
chaining (`?.`), nullish coalescing (`??`) and truthiness follow the
JavaScript semantics; `TypeError`s thrown by the engine (property access on
`null`, calling `.map` on a non-array, calling `.startsWith` on a truthy
non-string) are modelled as `Except.error ()`. -/

inductive Json where
  | null : Json
  | bool : Bool → Json
  | num : ℚ → Json
  | str : String → Json
  | arr : List Json → Json
  | obj : List (String × Json) → Json

/-- JavaScript truthiness of a possibly-absent value (`none` = `undefined`).
`undefined`, `null`, `false`, `0` and `""` are falsy; arrays and objects are
always truthy.  (`NaN`, the remaining falsy value, does not occur in parsed
JSON.) -/
def jsFalsy : Option Json → Bool
  | none => true
  | some .null => true
  | some (.bool b) => !b
  | some (.num q) => decide (q = 0)
  | some (.str s) => decide (s = "")
  | some (.arr _) => false
  | some (.obj _) => false

/-- Property lookup on a non-null value: defined keys of objects; every
other receiver yields `undefined` for the keys the engine reads (no built-in
properties are modelled).  Parsed JSON objects have unique keys
(`JSON.parse` keeps the last duplicate), so `lookup` is adequate. -/
def jsGetField (v : Json) (k : String) : Option Json :=
  match v with
  | .obj fields => fields.lookup k
  | _ => none

/-- Plain property access `v.k`: throws a `TypeError` when the receiver is
`null`, otherwise reads the property (`none` = `undefined`). -/
def jsGet (v : Json) (k : String) : Except Unit (Option Json) :=
  match v with
  | .null => .error ()
  | _ => .ok (jsGetField v k)

/-- One optional-chaining step `o?.k`: short-circuits to `undefined` on
`undefined`/`null` receivers, never throws. -/
def chainGet (o : Option Json) (k : String) : Option Json :=
  match o with
  | none => none
  | some .null => none
  | some v => jsGetField v k

/-- Nullish coalescing against the literal `0`: `o ?? 0`. -/
def orZero (o : Option Json) : Json :=
  match o with
  | none => .num 0
  | some .null => .num 0
  | some v => v

/-- `getDaGas` (source line 9): `result?.gas?.gasLimits?.daGas ?? 0`. -/
def getDaGas (result : Option Json) : Json :=
  orZero (chainGet (chainGet (chainGet result "gas") "gasLimits") "daGas")

/-- `getL2Gas` (source line 15): `result?.gas?.gasLimits?.l2Gas ?? 0`. -/
def getL2Gas (result : Option Json) : Json :=
  orZero (chainGet (chainGet (chainGet result "gas") "gasLimits") "l2Gas")

/-- The gate-count extraction inlined at source line 163:
`result?.totalGateCount ?? 0`. -/
def getTotalGateCount (result : Option Json) : Json :=
  orZero (chainGet result "totalGateCount")

/-- Numeric view of an extracted metric value, as consumed by the
arithmetic in `getStatusEmoji`/`formatDiff` and by `toLocaleString`.
Benchmark documents carry numbers here (and the extractors default absent
data to `num 0`); a non-numeric value would yield `NaN` in JavaScript,
which is outside every claim's scope and mapped to `0`. -/
def asQ : Json → ℚ
  | .num q => q
  | _ => 0

/-! ## The filesystem state and pair discovery -/

/-- Explicit filesystem state consumed by the engine.  `listing` is what
`readdirSync(reportsDir)` returns (`none`: the call throws, e.g. `ENOENT`;
the code catches this, logs, and proceeds with no pairs).  `content p`
describes the file at path `p`: `none` when `existsSync` is false, and
otherwise the combined result of `readFileSync` + `JSON.parse` — an error
message, or the parsed document. -/
structure FileSystem where
  listing : Option (List String)
  content : String → Option (Except String Json)

/-- `fs.existsSync`. -/
def existsSync (fs : FileSystem) (p : String) : Bool :=
  (fs.content p).isSome

/-- A discovered base/candidate file pair (source lines 102–106). -/
structure BenchmarkPair where
  contractName : String
  baseJsonPath : String
  prJsonPath : String
deriving DecidableEq

/-- Model of `path.join` for the well-formed directory paths the engine is
given (no normalization needed). -/
def pathJoin (a b : String) : String := a ++ "/" ++ b

/-- `a.endsWith b`, computed on the character lists (identical to the
JavaScript code-unit comparison for all characters of the Basic Multilingual
Plane). -/
def strEndsWith (a b : String) : Bool := b.data.isSuffixOf a.data

/-- `a.startsWith b` on the character lists. -/
def strStartsWith (a b : String) : Bool := b.data.isPrefixOf a.data

/-- `a.includes b`: substring containment, computed on character lists. -/
def strIncludes (a b : String) : Bool :=
  a.data.tails.any (fun t => b.data.isPrefixOf t)

/-- `file.substring(0, file.length - n)` on character lists (JavaScript
counts UTF-16 code units; identical for BMP characters). -/
def strDropRight (s : String) (n : Nat) : String :=
  String.mk (s.data.take (s.data.length - n))

/-- `findBenchmarkPairs` (source lines 84–119): scan the directory listing
for files ending in `<prSuffix>.benchmark.json`, recover the contract name,
and keep those whose sibling base file exists.  A throwing `readdirSync`
is caught and yields no pairs. -/
def findBenchmarkPairs (fs : FileSystem) (reportsDir baseSuffix prSuffix : String) :
    List BenchmarkPair :=
  let prSuffixPattern := prSuffix ++ ".benchmark.json"
  let baseSuffixPattern := baseSuffix ++ ".benchmark.json"
  match fs.listing with
  | none => []
  | some files =>
    files.filterMap fun file =>
      if strEndsWith file prSuffixPattern then
        let contractName := strDropRight file prSuffixPattern.data.length
        let baseFilename := contractName ++ baseSuffixPattern
        let baseJsonPath := pathJoin reportsDir baseFilename
        let prJsonPath := pathJoin reportsDir file
        if existsSync fs baseJsonPath then
          some ⟨contractName, baseJsonPath, prJsonPath⟩
        else none
      else none

/-! ## The per-pair diff engine -/

/-- `mainData.results.map(r => r.name)`: evaluates `r.name` on every
element in order; a `null` element makes the access throw. -/
def collectNames (results : List Json) : Except Unit (List (Option Json)) :=
  results.mapM (fun r => jsGet r "name")

/-- `SameValueZero` equality as used by a JavaScript `Set`, restricted to
the values that can appear as a `name` field.  Primitives compare by value.
Arrays and objects compare by reference in JavaScript; they are treated as
never equal here, which cannot change the engine's result: any truthy
non-string name makes the filter loop throw before a table is built, so
how many copies of such a value survive the `Set` is irrelevant. -/
def nameEq : Option Json → Option Json → Bool
  | none, none => true
  | some .null, some .null => true
  | some (.bool a), some (.bool b) => a == b
  | some (.num a), some (.num b) => decide (a = b)
  | some (.str a), some (.str b) => a == b
  | _, _ => false

/-- First-occurrence deduplication with an explicit equality test, in
insertion order — the iteration order of `new Set([...])`. -/
def dedupBy (eq : α → α → Bool) : List α → List α → List α
  | _, [] => []
  | seen, a :: rest =>
    if seen.any (fun b => eq b a) then dedupBy eq seen rest
    else a :: dedupBy eq (a :: seen) rest

/-- The malformed/failed placeholder-name test of the filter loop (source
line 155), for the non-empty string case. -/
def isExcludedName (s : String) : Bool :=
  strStartsWith s "unknown_function" || strIncludes s "(FAILED)" ||
    s == "BENCHMARK_RUNNER_ERROR"

/-- The filter loop over the union of names (source lines 154–158): falsy
names (`undefined`, `null`, `0`, `""`, `false`) and excluded placeholder
names are skipped; a truthy non-string name throws a `TypeError` when
`.startsWith` is called on it. -/
def validNames : List (Option Json) → Except Unit (List String)
  | [] => .ok []
  | v :: rest =>
    if jsFalsy v then validNames rest
    else
      match v with
      | some (.str s) =>
        if isExcludedName s then validNames rest
        else do
          let tail ← validNames rest
          .ok (s :: tail)
      | _ => .error ()

/-- `results.find(r => r.name === name)` (source lines 159–160).  By the
time the lookup runs, `collectNames` has succeeded, so no element is `null`
and the accesses cannot throw; strict equality with the string `name` holds
exactly when the element's `name` property is that string. -/
def findByName (results : List Json) (name : String) : Option Json :=
  results.find? fun r =>
    match jsGet r "name" with
    | .ok (some (.str s)) => s == name
    | _ => false

/-- The metrics record built for one surviving function name (source lines
162–166). -/
def buildMetrics (mainResults prResults : List Json) (name : String) : Metrics :=
  let mainResult := findByName mainResults name
  let prResult := findByName prResults name
  { gates := ⟨asQ (getTotalGateCount mainResult), asQ (getTotalGateCount prResult)⟩
    daGas := ⟨asQ (getDaGas mainResult), asQ (getDaGas prResult)⟩
    l2Gas := ⟨asQ (getL2Gas mainResult), asQ (getL2Gas prResult)⟩ }

/-! ## Sorting: the default `Array.sort()` and `localeCompare` -/

/-- The relation of the default JavaScript `Array.prototype.sort()` on
strings: lexicographic comparison of the character sequences (JavaScript
compares UTF-16 code units; identical for BMP characters). -/
def strLe (a b : String) : Prop := a.data ≤ b.data

instance : DecidableRel strLe := fun a b => by
  unfold strLe; infer_instance

/-- Collation key modelling `String.prototype.localeCompare` under the ICU
root/`en-US` default collation for ASCII text: a primary pass that folds
case (an upper-case letter gets its lower-case code, all codes shifted by 2
to stay above the case bits), followed by a case-level pass in which lower
case (0) precedes upper case (1). -/
def localeKey (s : String) : List Nat :=
  s.data.map (fun c => (if c.isUpper then c.toNat + 32 else c.toNat) + 2) ++
    s.data.map (fun c => if c.isUpper then 1 else 0)

/-- The ordering produced by `a.localeCompare(b)` (model): comparison of
collation keys. -/
def localeLe (a b : String) : Prop := localeKey a ≤ localeKey b

instance : DecidableRel localeLe := fun a b => by
  unfold localeLe; infer_instance

/-- The comparator of source line 260, lifted to pairs:
`(a, b) => a.contractName.localeCompare(b.contractName)`. -/
def pairLe (a b : BenchmarkPair) : Prop := localeLe a.contractName b.contractName

instance : DecidableRel pairLe := fun a b => by
  unfold pairLe; infer_instance

/-! ## The table renderer -/

/-- `Array.prototype.join('\n')`. -/
def joinNL : List String → String
  | [] => ""
  | [a] => a
  | a :: rest => a ++ "\n" ++ joinNL rest

/-- The static table header lines (source lines 169–194). -/
def tableHeaderLines : List String :=
  ["<table>", "<thead>", "<tr>", "  <th></th>", "  <th>Function</th>",
   "  <th colspan=\"3\">Gates</th>", "  <th colspan=\"3\">DA Gas</th>",
   "  <th colspan=\"3\">L2 Gas</th>", "</tr>", "<tr>", "  <th>Status</th>",
   "  <th></th>", "  <th>Base</th>", "  <th>PR</th>", "  <th>Diff</th>",
   "  <th>Base</th>", "  <th>PR</th>", "  <th>Diff</th>", "  <th>Base</th>",
   "  <th>PR</th>", "  <th>Diff</th>", "</tr>", "</thead>", "<tbody>"]

/-- The three `<td>` cells for one metric pair (source lines 212–222). -/
def metricCells (p : MetricPair) : List String :=
  ["  <td align=\"right\">" ++ jsToLocaleString p.main ++ "</td>",
   "  <td align=\"right\">" ++ jsToLocaleString p.pr ++ "</td>",
   "  <td align=\"right\">" ++ formatDiff p.main p.pr ++ "</td>"]

/-- One table row for a surviving function name (source lines 202–225). -/
def renderRow (mainResults prResults : List Json) (threshold : ℚ)
    (funcName : String) : List String :=
  let metrics := buildMetrics mainResults prResults funcName
  let statusEmoji := getStatusEmoji metrics threshold
  ["<tr>", "  <td align=\"center\">" ++ statusEmoji ++ "</td>",
   "  <td><code>" ++ funcName ++ "</code></td>"] ++
    metricCells metrics.gates ++ metricCells metrics.daGas ++
    metricCells metrics.l2Gas ++ ["</tr>"]

/-- The union-dedup-filter-sort pipeline that determines which function
names get a table row (source lines 149–158 and 196): names of both results
lists in order, deduplicated as by `new Set`, filtered by the skip
conditions (throwing on truthy non-strings), and sorted by the default
`.sort()`. -/
def rowNames (mainResults prResults : List Json) : Except Unit (List String) := do
  let mainNames ← collectNames mainResults
  let prNames ← collectNames prResults
  let allFunctionNames := dedupBy nameEq [] (mainNames ++ prNames)
  let kept ← validNames allFunctionNames
  .ok (kept.insertionSort strLe)

/-- `generateContractComparisonTable` (source lines 127–229): compares the
two documents of one discovered pair and renders the HTML table, degrading
to `.ok` placeholder strings for missing files, read/parse failures and
missing/falsy `results` fields.  `.error ()` models an uncaught
`TypeError` (truthy non-array `results`, `null` entry in a `results` list,
truthy non-string `name`). -/
def generateContractComparisonTable (content : String → Option (Except String Json))
    (pair : BenchmarkPair) (threshold : ℚ) : Except Unit String :=
  match content pair.baseJsonPath, content pair.prJsonPath with
  | none, _ =>
    .ok ("*Error: One or both report files missing for " ++ pair.contractName ++
      " (this should not happen)*")
  | _, none =>
    .ok ("*Error: One or both report files missing for " ++ pair.contractName ++
      " (this should not happen)*")
  | some (.error msg), some _ =>
    .ok ("*Error parsing benchmark JSON for " ++ pair.contractName ++ ": " ++ msg ++ "*")
  | some (.ok _), some (.error msg) =>
    .ok ("*Error parsing benchmark JSON for " ++ pair.contractName ++ ": " ++ msg ++ "*")
  | some (.ok mainData), some (.ok prData) =>
    if jsFalsy (some mainData) || jsFalsy (jsGetField mainData "results") ||
        jsFalsy (some prData) || jsFalsy (jsGetField prData "results") then
      .ok ("*Skipping " ++ pair.contractName ++
        ": Invalid JSON structure (missing results array).*")
    else
      match jsGetField mainData "results", jsGetField prData "results" with
      | some (.arr mainResults), some (.arr prResults) => do
        let sortedNames ← rowNames mainResults prResults
        if sortedNames.isEmpty then
          .ok "*No comparable functions found between reports.*"
        else
          .ok (joinNL (tableHeaderLines ++
            sortedNames.flatMap (renderRow mainResults prResults threshold) ++
            ["</tbody>", "</table>"]))
      | _, _ => .error ()

/-! ## `runComparison` -/

/-- The configuration record consumed by `runComparison`. -/
structure ComparisonInputs where
  reportsDir : String
  baseSuffix : String
  prSuffix : String
  threshold : ℚ

/-- The discovered pairs, sorted by the `localeCompare` comparator of
source line 260. -/
def sortedBenchmarkPairs (fs : FileSystem) (inputs : ComparisonInputs) :
    List BenchmarkPair :=
  (findBenchmarkPairs fs inputs.reportsDir inputs.baseSuffix inputs.prSuffix).insertionSort
    pairLe

/-- The contract names of the rendered sections, in rendering order. -/
def sectionNames (fs : FileSystem) (inputs : ComparisonInputs) : List String :=
  (sortedBenchmarkPairs fs inputs).map BenchmarkPair.contractName

/-- The fixed document returned when no pairs are discovered (source line
254). -/
def noPairsDocument : String :=
  "# Benchmark Comparison\n\nNo matching benchmark report pairs found to compare.\n"

/-- The three lines pushed for one contract section (source lines 265–267):
the contract heading, the table (or placeholder), and a blank separator. -/
def sectionLines (content : String → Option (Except String Json)) (threshold : ℚ)
    (pair : BenchmarkPair) : Except Unit (List String) := do
  let tableMarkdown ← generateContractComparisonTable content pair threshold
  pure ["## Contract: " ++ pair.contractName ++ "\n", tableMarkdown, "\n"]

/-- `runComparison` (source lines 241–272): discover pairs, return the
fixed no-pairs document when there are none, otherwise sort the pairs and
concatenate the marker comment, the heading and one section per pair.  An
uncaught exception from a single-pair comparison propagates. -/
def runComparison (fs : FileSystem) (inputs : ComparisonInputs) : Except Unit String :=
  let benchmarkPairs := findBenchmarkPairs fs inputs.reportsDir inputs.baseSuffix
    inputs.prSuffix
  if benchmarkPairs.isEmpty then
    .ok noPairsDocument
  else do
    let sections ← (sortedBenchmarkPairs fs inputs).mapM
      (sectionLines fs.content inputs.threshold)
    .ok (joinNL ("<!-- benchmark-diff -->\n" :: "# Benchmark Comparison\n" ::
      sections.flatten))

/-! ## Specification-side predicates

These restate the specification's classification conditions (§4.3 of the
spec) in its own words, to be compared with the embedded code. -/

/-- The three metric pairs of a `Metrics` record, in the engine's order. -/
def tripleList (m : Metrics) : List MetricPair := [m.gates, m.daGas, m.l2Gas]

/-- All six values of a metrics record are non-negative. -/
def nonnegMetrics (m : Metrics) : Prop :=
  ∀ p ∈ tripleList m, 0 ≤ p.main ∧ 0 ≤ p.pr

instance (m : Metrics) : Decidable (nonnegMetrics m) := by
  unfold nonnegMetrics; infer_instance

/-- A metric's fractional change as the specification defines it: `0` when
base and candidate are both zero, positive infinity (`none`) when the base
is zero and the candidate positive, otherwise `(candidate − base) / base`. -/
def specFractionalChange (p : MetricPair) : Option ℚ :=
  if p.main = 0 ∧ p.pr = 0 then some 0
  else if p.main = 0 ∧ 0 < p.pr then none
  else some ((p.pr - p.main) / p.main)

/-- A possibly-infinite fractional change is finite and strictly greater
than `t`. -/
def specExceeds (o : Option ℚ) (t : ℚ) : Prop := ∃ q, o = some q ∧ t < q

instance (o : Option ℚ) (t : ℚ) : Decidable (specExceeds o t) :=
  match o with
  | none => isFalse (by simp [specExceeds])
  | some q => decidable_of_iff (t < q) (by simp [specExceeds])

/-- A possibly-infinite fractional change is finite and strictly less than
`t`. -/
def specBelow (o : Option ℚ) (t : ℚ) : Prop := ∃ q, o = some q ∧ q < t

instance (o : Option ℚ) (t : ℚ) : Decidable (specBelow o t) :=
  match o with
  | none => isFalse (by simp [specBelow])
  | some q => decidable_of_iff (q < t) (by simp [specBelow])

/-- The specification's Regression condition: some metric's fractional
change is infinite, or some finite fractional change strictly exceeds
`T/100`. -/
def specHasRegression (m : Metrics) (T : ℚ) : Prop :=
  (∃ p ∈ tripleList m, specFractionalChange p = none) ∨
    ∃ p ∈ tripleList m, specExceeds (specFractionalChange p) (T / 100)

instance (m : Metrics) (T : ℚ) : Decidable (specHasRegression m T) := by
  unfold specHasRegression; infer_instance

/-- The specification's Improvement condition: some finite fractional
change is strictly less than `−T/100`. -/
def specHasImprovement (m : Metrics) (T : ℚ) : Prop :=
  ∃ p ∈ tripleList m, specBelow (specFractionalChange p) (-(T / 100))

instance (m : Metrics) (T : ℚ) : Decidable (specHasImprovement m T) := by
  unfold specHasImprovement; infer_instance

/-! ## Order instances and concrete inputs used by the theorems -/

instance : IsTrans String strLe :=
  ⟨fun _ _ _ h1 h2 => le_trans (α := List Char) h1 h2⟩

instance : IsTotal String strLe :=
  ⟨fun a b => le_total a.data b.data⟩

instance : IsTrans String localeLe :=
  ⟨fun _ _ _ h1 h2 => le_trans (α := List Nat) h1 h2⟩

instance : IsTotal String localeLe :=
  ⟨fun a b => le_total (localeKey a) (localeKey b)⟩

instance : IsTrans BenchmarkPair pairLe :=
  ⟨fun _ _ _ h1 h2 => le_trans (α := List Nat) h1 h2⟩

instance : IsTotal BenchmarkPair pairLe :=
  ⟨fun a b => le_total (localeKey a.contractName) (localeKey b.contractName)⟩

/-- A minimal well-formed benchmark document with one function `transfer`
and the given gate count. -/
def sampleDoc (gates : ℚ) : Json :=
  Json.obj [("results", Json.arr [Json.obj
    [("name", Json.str "transfer"), ("totalGateCount", Json.num gates)]])]

/-- The conventional inputs: `./benchmarks`, suffixes `_base`/`_latest`,
threshold 10%. -/
def stdInputs : ComparisonInputs := ⟨"benchmarks", "_base", "_latest", 10⟩

/-- A filesystem with two well-formed contract pairs named `Zebra` and
`apple` (names chosen so that code-unit order and locale collation
disagree). -/
def fsZebraApple : FileSystem where
  listing := some ["Zebra_latest.benchmark.json", "apple_latest.benchmark.json",
    "Zebra_base.benchmark.json", "apple_base.benchmark.json"]
  content := fun p =>
    if p = "benchmarks/Zebra_base.benchmark.json" then some (.ok (sampleDoc 100))
    else if p = "benchmarks/Zebra_latest.benchmark.json" then some (.ok (sampleDoc 100))
    else if p = "benchmarks/apple_base.benchmark.json" then some (.ok (sampleDoc 50))
    else if p = "benchmarks/apple_latest.benchmark.json" then some (.ok (sampleDoc 50))
    else none

/-- The same filesystem with the directory listing in reverse order. -/
def fsZebraAppleRev : FileSystem where
  listing := some ["apple_base.benchmark.json", "Zebra_base.benchmark.json",
    "apple_latest.benchmark.json", "Zebra_latest.benchmark.json"]
  content := fsZebraApple.content

/-- The document produced for `fsZebraApple` (total extraction of the `.ok`
payload; the run does not throw on this input). -/
def docZA : String :=
  match runComparison fsZebraApple stdInputs with
  | .ok d => d
  | .error _ => ""

/-- An existing but empty reports directory. -/
def fsEmptyDir : FileSystem := ⟨some [], fun _ => none⟩

/-- A parseable document whose `results` field is a truthy non-array. -/
def resultsNotArrayDoc : Json := Json.obj [("results", Json.num 5)]

/-- A filesystem with one well-formed pair (`Good`) and one pair (`Bad`)
whose documents have `results: 5`. -/
def fsBadResults : FileSystem where
  listing := some ["Bad_latest.benchmark.json", "Bad_base.benchmark.json",
    "Good_latest.benchmark.json", "Good_base.benchmark.json"]
  content := fun p =>
    if p = "benchmarks/Bad_base.benchmark.json" then some (.ok resultsNotArrayDoc)
    else if p = "benchmarks/Bad_latest.benchmark.json" then some (.ok resultsNotArrayDoc)
    else if p = "benchmarks/Good_base.benchmark.json" then some (.ok (sampleDoc 100))
    else if p = "benchmarks/Good_latest.benchmark.json" then some (.ok (sampleDoc 100))
    else none

/-- A filesystem whose base file exists but fails to read or parse. -/
def fsParseFail : FileSystem where
  listing := some ["Tok_latest.benchmark.json", "Tok_base.benchmark.json"]
  content := fun p =>
    if p = "benchmarks/Tok_base.benchmark.json" then
      some (.error "Unexpected token")
    else if p = "benchmarks/Tok_latest.benchmark.json" then some (.ok (sampleDoc 100))
    else none

/-! ## Theorems -/

/-- The code's `diffPct` computes exactly the specification's fractional
change (using that division by zero is zero in `ℚ` for the base-zero,
negative-candidate corner neither text reaches with non-negative data). -/
theorem diffPct_eq_specFractionalChange (p : MetricPair) :
    diffPct p = specFractionalChange p := by
  unfold diffPct specFractionalChange
  by_cases h0 : p.main = 0
  · by_cases hpr : 0 < p.pr
    · simp [h0, hpr, ne_of_gt hpr]
    · have hle : p.pr ≤ 0 := not_lt.mp hpr
      by_cases hz : p.pr = 0
      · simp [h0, hz]
      · simp [h0, hz, hpr, div_zero]
  · simp [h0]

/-- The Removed and New conditions are mutually exclusive: Removed demands
a positive base-side value, New demands all base-side values zero. -/
theorem not_isRemoved_and_isNew (m : Metrics) : ¬(isRemoved m ∧ isNew m) := by
  rintro ⟨⟨_, hbase⟩, ⟨hzero, _⟩⟩
  rcases hbase with h | h | h <;>
    simp only [hzero.1, hzero.2.1, hzero.2.2, lt_self_iff_false] at h

/-- C2: `getStatusEmoji` returns 🚮 exactly on the Removed condition (all
three candidate-side values zero and some base-side value positive), 🆕
exactly on the New condition (all three base-side values zero and some
candidate-side value positive); the Removed check runs first, and the two
conditions can never hold together. -/
theorem statusEmoji_removed_new (m : Metrics) (threshold : ℚ) :
    (getStatusEmoji m threshold = "🚮" ↔ isRemoved m) ∧
      (getStatusEmoji m threshold = "🆕" ↔ isNew m) ∧
      ¬(isRemoved m ∧ isNew m) := by
  have hx := not_isRemoved_and_isNew m
  unfold getStatusEmoji
  by_cases h1 : isRemoved m
  · have h2 : ¬isNew m := fun h2 => hx ⟨h1, h2⟩
    rw [if_pos h1]
    exact ⟨⟨fun _ => h1, fun _ => rfl⟩,
      ⟨fun hc => absurd hc (by decide), fun hc => absurd hc h2⟩, hx⟩
  · rw [if_neg h1]
    by_cases h2 : isNew m
    · rw [if_pos h2]
      exact ⟨⟨fun hc => absurd hc (by decide), fun hc => absurd hc h1⟩,
        ⟨fun _ => h2, fun _ => rfl⟩, hx⟩
    · rw [if_neg h2]
      refine ⟨⟨fun hc => ?_, fun hc => absurd hc h1⟩,
        ⟨fun hc => ?_, fun hc => absurd hc h2⟩, hx⟩
      · revert hc; dsimp only; split_ifs <;> (intro hc2; exact absurd hc2 (by decide))
      · revert hc; dsimp only; split_ifs <;> (intro hc2; exact absurd hc2 (by decide))

/-- C10: the Removed and New classifications are independent of the
threshold — `getStatusEmoji` returns 🚮 (resp. 🆕) for every threshold when
the Removed (resp. New) condition holds. -/
theorem statusEmoji_threshold_independent (m : Metrics) (T₁ T₂ : ℚ) :
    (isRemoved m →
        getStatusEmoji m T₁ = "🚮" ∧ getStatusEmoji m T₁ = getStatusEmoji m T₂) ∧
      (isNew m →
        getStatusEmoji m T₁ = "🆕" ∧ getStatusEmoji m T₁ = getStatusEmoji m T₂) := by
  constructor
  · intro h
    unfold getStatusEmoji
    rw [if_pos h, if_pos h]
    exact ⟨rfl, rfl⟩
  · intro h
    have h1 : ¬isRemoved m := fun hr => not_isRemoved_and_isNew m ⟨hr, h⟩
    unfold getStatusEmoji
    rw [if_neg h1, if_pos h, if_neg h1, if_pos h]
    exact ⟨rfl, rfl⟩

/-- Witness for C10 at concrete inputs: a removed function is 🚮 at
threshold 3 and a new one 🆕 even at a negative threshold. -/
theorem statusEmoji_threshold_independent_witness :
    getStatusEmoji ⟨⟨1, 0⟩, ⟨0, 0⟩, ⟨0, 0⟩⟩ 3 = "🚮" ∧
      getStatusEmoji ⟨⟨0, 1⟩, ⟨0, 0⟩, ⟨0, 0⟩⟩ (-7) = "🆕" :=
  ⟨((statusEmoji_threshold_independent ⟨⟨1, 0⟩, ⟨0, 0⟩, ⟨0, 0⟩⟩ 3 5).1 (by decide)).1,
    ((statusEmoji_threshold_independent ⟨⟨0, 1⟩, ⟨0, 0⟩, ⟨0, 0⟩⟩ (-7) 2).2 (by decide)).1⟩

/-- The code's infinite-increase test coincides with the specification's
"some fractional change is infinite". -/
theorem anyInfinite_iff (m : Metrics) :
    ([diffPct m.gates, diffPct m.daGas, diffPct m.l2Gas].any Option.isNone = true) ↔
      ∃ p ∈ tripleList m, specFractionalChange p = none := by
  simp [tripleList, diffPct_eq_specFractionalChange, Option.isNone_iff_eq_none]

/-- The code's `metricsDiffs.some(m => m > thresholdDecimal)` test coincides
with the specification's "some finite fractional change exceeds the
threshold". -/
theorem anyExceeds_iff (m : Metrics) (t : ℚ) :
    ((List.filterMap id [diffPct m.gates, diffPct m.daGas, diffPct m.l2Gas]).any
        (fun d => decide (t < d)) = true) ↔
      ∃ p ∈ tripleList m, specExceeds (specFractionalChange p) t := by
  simp only [List.any_eq_true, List.mem_filterMap, id_eq, tripleList, specExceeds,
    diffPct_eq_specFractionalChange, List.mem_cons, List.not_mem_nil, or_false,
    decide_eq_true_eq]
  aesop

/-- The code's `metricsDiffs.some(m => m < -thresholdDecimal)` test
coincides with the specification's "some finite fractional change is less
than the negated threshold". -/
theorem anyBelow_iff (m : Metrics) (t : ℚ) :
    ((List.filterMap id [diffPct m.gates, diffPct m.daGas, diffPct m.l2Gas]).any
        (fun d => decide (d < t)) = true) ↔
      ∃ p ∈ tripleList m, specBelow (specFractionalChange p) t := by
  simp only [List.any_eq_true, List.mem_filterMap, id_eq, tripleList, specBelow,
    diffPct_eq_specFractionalChange, List.mem_cons, List.not_mem_nil, or_false,
    decide_eq_true_eq]
  aesop

/-- C1: away from the Removed and New cases, `getStatusEmoji` returns 🔴
exactly when the specification's Regression condition holds (a metric with
zero base and positive candidate — infinite change — or a finite fractional
change strictly above `T/100`); otherwise 🟢 exactly when some finite
fractional change is strictly below `−T/100`; otherwise ⚪.  Regression is
decided before Improvement. -/
theorem statusEmoji_classification (m : Metrics) (T : ℚ) (hnn : nonnegMetrics m)
    (hrem : ¬isRemoved m) (hnew : ¬isNew m) :
    (getStatusEmoji m T = "🔴" ↔ specHasRegression m T) ∧
      (getStatusEmoji m T = "🟢" ↔ ¬specHasRegression m T ∧ specHasImprovement m T) ∧
      (getStatusEmoji m T = "⚪" ↔ ¬specHasRegression m T ∧ ¬specHasImprovement m T) := by
  unfold getStatusEmoji
  rw [if_neg hrem, if_neg hnew]
  dsimp only
  have hRegIff :
      (([diffPct m.gates, diffPct m.daGas, diffPct m.l2Gas].any Option.isNone ||
          (List.filterMap id [diffPct m.gates, diffPct m.daGas, diffPct m.l2Gas]).any
            fun d => decide (T / 100 < d)) = true) ↔ specHasRegression m T := by
    rw [Bool.or_eq_true, anyInfinite_iff, anyExceeds_iff]
    exact Iff.rfl
  have hImpIff :
      (((List.filterMap id [diffPct m.gates, diffPct m.daGas, diffPct m.l2Gas]).any
          fun d => decide (d < -(T / 100))) = true) ↔ specHasImprovement m T :=
    anyBelow_iff m (-(T / 100))
  by_cases hre : specHasRegression m T
  · rw [if_pos (hRegIff.mpr hre)]
    exact ⟨⟨fun _ => hre, fun _ => rfl⟩,
      ⟨fun hc => absurd hc (by decide), fun hc => absurd hre hc.1⟩,
      ⟨fun hc => absurd hc (by decide), fun hc => absurd hre hc.1⟩⟩
  · rw [if_neg (fun hc => hre (hRegIff.mp hc))]
    by_cases him : specHasImprovement m T
    · rw [if_pos (hImpIff.mpr him)]
      exact ⟨⟨fun hc => absurd hc (by decide), fun hr => absurd hr hre⟩,
        ⟨fun _ => ⟨hre, him⟩, fun _ => rfl⟩,
        ⟨fun hc => absurd hc (by decide), fun hc => absurd him hc.2⟩⟩
    · rw [if_neg (fun hc => him (hImpIff.mp hc))]
      exact ⟨⟨fun hc => absurd hc (by decide), fun hr => absurd hr hre⟩,
        ⟨fun hc => absurd hc (by decide), fun hc => absurd hc.2 him⟩,
        ⟨fun _ => ⟨hre, him⟩, fun _ => rfl⟩⟩

/-- Witness for C1 at a concrete input: gates 100→120 at threshold 10 is
neither Removed nor New, has non-negative values, and the classification
equivalences hold there (the status is 🔴, a 20% regression). -/
theorem statusEmoji_classification_witness :
    nonnegMetrics ⟨⟨100, 120⟩, ⟨0, 0⟩, ⟨0, 0⟩⟩ ∧
      ¬isRemoved ⟨⟨100, 120⟩, ⟨0, 0⟩, ⟨0, 0⟩⟩ ∧ ¬isNew ⟨⟨100, 120⟩, ⟨0, 0⟩, ⟨0, 0⟩⟩ ∧
      ((getStatusEmoji ⟨⟨100, 120⟩, ⟨0, 0⟩, ⟨0, 0⟩⟩ 10 = "🔴" ↔
          specHasRegression ⟨⟨100, 120⟩, ⟨0, 0⟩, ⟨0, 0⟩⟩ 10) ∧
        (getStatusEmoji ⟨⟨100, 120⟩, ⟨0, 0⟩, ⟨0, 0⟩⟩ 10 = "🟢" ↔
          ¬specHasRegression ⟨⟨100, 120⟩, ⟨0, 0⟩, ⟨0, 0⟩⟩ 10 ∧
            specHasImprovement ⟨⟨100, 120⟩, ⟨0, 0⟩, ⟨0, 0⟩⟩ 10) ∧
        (getStatusEmoji ⟨⟨100, 120⟩, ⟨0, 0⟩, ⟨0, 0⟩⟩ 10 = "⚪" ↔
          ¬specHasRegression ⟨⟨100, 120⟩, ⟨0, 0⟩, ⟨0, 0⟩⟩ 10 ∧
            ¬specHasImprovement ⟨⟨100, 120⟩, ⟨0, 0⟩, ⟨0, 0⟩⟩ 10)) :=
  ⟨by decide, by decide, by decide,
    statusEmoji_classification ⟨⟨100, 120⟩, ⟨0, 0⟩, ⟨0, 0⟩⟩ 10 (by decide) (by decide)
      (by decide)⟩

/-- C3: the case analysis of `formatDiff` — empty string on double zero, on
equal inputs and on sub-noise changes (`|pct| < 0.01` and `|delta| < 1`);
`+Inf%` for a zero base with positive candidate; `-100%` for a positive
base with zero candidate; otherwise the signed thousands-grouped delta
followed by the signed percentage to one decimal place, with
`formatDiff 1000 1050 = "+50 (+5.0%)"` in particular. -/
theorem formatDiff_spec :
    formatDiff 0 0 = "" ∧
      (∀ pr : ℚ, 0 < pr → formatDiff 0 pr = "+Inf%") ∧
      (∀ main : ℚ, 0 < main → formatDiff main 0 = "-100%") ∧
      (∀ v : ℚ, formatDiff v v = "") ∧
      (∀ main pr : ℚ, main ≠ 0 → pr ≠ 0 → pr - main ≠ 0 →
        |(pr - main) / main * 100| < 1 / 100 → |pr - main| < 1 →
        formatDiff main pr = "") ∧
      (∀ main pr : ℚ, main ≠ 0 → pr ≠ 0 → pr - main ≠ 0 →
        ¬(|(pr - main) / main * 100| < 1 / 100 ∧ |pr - main| < 1) →
        formatDiff main pr =
          (if 0 < pr - main then "+" else "") ++ jsToLocaleString (pr - main) ++ " (" ++
            (if 0 < pr - main then "+" else "") ++ jsToFixed1 ((pr - main) / main * 100) ++
            "%)") ∧
      formatDiff 1000 1050 = "+50 (+5.0%)" := by
  refine ⟨by decide, ?_, ?_, ?_, ?_, ?_, by decide⟩
  · intro pr h
    simp [formatDiff, ne_of_gt h]
  · intro main h
    simp [formatDiff, ne_of_gt h]
  · intro v
    by_cases hv : v = 0
    · subst hv; decide
    · simp [formatDiff, hv, sub_self]
  · intro main pr h1 h2 h3 h4 h5
    unfold formatDiff
    rw [if_neg (fun hc => h1 hc.1), if_neg h1, if_neg h2]
    dsimp only
    rw [if_neg h3, if_pos ⟨h4, h5⟩]
  · intro main pr h1 h2 h3 h4
    unfold formatDiff
    rw [if_neg (fun hc => h1 hc.1), if_neg h1, if_neg h2]
    dsimp only
    rw [if_neg h3, if_neg h4]

/-- Witness for C3 at concrete inputs: `formatDiff 0 5`, `formatDiff 5 0`,
`formatDiff 7 7`, and the sub-noise change 10000 → 10000.5. -/
theorem formatDiff_spec_witness :
    formatDiff 0 5 = "+Inf%" ∧ formatDiff 5 0 = "-100%" ∧ formatDiff 7 7 = "" ∧
      formatDiff 10000 (20001 / 2) = "" :=
  ⟨formatDiff_spec.2.1 5 (by decide), formatDiff_spec.2.2.1 5 (by decide),
    formatDiff_spec.2.2.2.1 7,
    formatDiff_spec.2.2.2.2.1 10000 (20001 / 2) (by decide) (by decide) (by decide)
      (by decide) (by decide)⟩

/-- C9: metric extraction is total (the extractors are total Lean functions
built from never-throwing optional chaining) and every absent piece of data
resolves to `0`: an absent record, a record without a `gas` object, a `gas`
object without `gasLimits`, a `gasLimits` object without the scalar, and a
record without `totalGateCount` all yield the numeric value `0`. -/
theorem metricExtraction_defaults :
    (getTotalGateCount none = Json.num 0 ∧ getDaGas none = Json.num 0 ∧
        getL2Gas none = Json.num 0) ∧
      (∀ fields : List (String × Json), fields.lookup "gas" = none →
        getDaGas (some (.obj fields)) = Json.num 0 ∧
          getL2Gas (some (.obj fields)) = Json.num 0) ∧
      (∀ fields gfields : List (String × Json),
        fields.lookup "gas" = some (.obj gfields) →
        gfields.lookup "gasLimits" = none →
        getDaGas (some (.obj fields)) = Json.num 0 ∧
          getL2Gas (some (.obj fields)) = Json.num 0) ∧
      (∀ fields gfields lfields : List (String × Json),
        fields.lookup "gas" = some (.obj gfields) →
        gfields.lookup "gasLimits" = some (.obj lfields) →
        lfields.lookup "daGas" = none →
        getDaGas (some (.obj fields)) = Json.num 0) ∧
      (∀ fields gfields lfields : List (String × Json),
        fields.lookup "gas" = some (.obj gfields) →
        gfields.lookup "gasLimits" = some (.obj lfields) →
        lfields.lookup "l2Gas" = none →
        getL2Gas (some (.obj fields)) = Json.num 0) ∧
      (∀ fields : List (String × Json), fields.lookup "totalGateCount" = none →
        getTotalGateCount (some (.obj fields)) = Json.num 0) := by
  refine ⟨⟨rfl, rfl, rfl⟩, ?_, ?_, ?_, ?_, ?_⟩
  · intro fields h
    constructor <;> simp [getDaGas, getL2Gas, chainGet, jsGetField, orZero, h]
  · intro fields gfields h1 h2
    constructor <;> simp [getDaGas, getL2Gas, chainGet, jsGetField, orZero, h1, h2]
  · intro fields gfields lfields h1 h2 h3
    simp [getDaGas, chainGet, jsGetField, orZero, h1, h2, h3]
  · intro fields gfields lfields h1 h2 h3
    simp [getL2Gas, chainGet, jsGetField, orZero, h1, h2, h3]
  · intro fields h
    simp [getTotalGateCount, chainGet, jsGetField, orZero, h]

/-- Witness for C9 at concrete records: the empty record, a record whose
`gas` has no `gasLimits`, and a record with an empty `gasLimits`. -/
theorem metricExtraction_defaults_witness :
    (getDaGas (some (Json.obj [])) = Json.num 0 ∧
        getL2Gas (some (Json.obj [])) = Json.num 0) ∧
      (getDaGas (some (Json.obj [("gas", Json.obj [])])) = Json.num 0 ∧
        getL2Gas (some (Json.obj [("gas", Json.obj [])])) = Json.num 0) ∧
      getDaGas (some (Json.obj [("gas", Json.obj [("gasLimits", Json.obj [])])])) =
        Json.num 0 ∧
      getTotalGateCount (some (Json.obj [("name", Json.str "f")])) = Json.num 0 :=
  ⟨metricExtraction_defaults.2.1 [] rfl,
    metricExtraction_defaults.2.2.1 [("gas", Json.obj [])] [] rfl rfl,
    metricExtraction_defaults.2.2.2.1 [("gas", Json.obj [("gasLimits", Json.obj [])])] 
      [("gasLimits", Json.obj [])] [] rfl rfl rfl,
    metricExtraction_defaults.2.2.2.2.2 [("name", Json.str "f")] rfl⟩

/-- Every name kept by the filter loop is a non-empty string passing the
exclusion tests. -/
theorem validNames_mem (l : List (Option Json)) (names : List String)
    (h : validNames l = .ok names) :
    ∀ s ∈ names, s ≠ "" ∧ isExcludedName s = false := by
  induction l generalizing names with
  | nil =>
    unfold validNames at h
    cases h
    simp
  | cons v rest ih =>
    unfold validNames at h
    by_cases hf : jsFalsy v = true
    · rw [if_pos hf] at h
      exact ih names h
    · rw [if_neg hf] at h
      match v, hf, h with
      | none, hf, h => exact absurd rfl hf
      | some .null, hf, h => exact absurd rfl hf
      | some (.bool b), hf, h =>
        cases b with
        | false => exact absurd rfl hf
        | true => exact absurd h (by simp)
      | some (.num q), hf, h =>
        by_cases hq : q = 0
        · exact absurd (by simp [jsFalsy, hq]) hf
        · exact absurd h (by simp)
      | some (.arr xs), hf, h => exact absurd h (by simp)
      | some (.obj fields), hf, h => exact absurd h (by simp)
      | some (.str s), hf, h =>
        dsimp only at h
        have hs : s ≠ "" := by
          intro he
          exact hf (by simp [jsFalsy, he])
        by_cases hex : isExcludedName s = true
        · rw [if_pos hex] at h
          exact ih names h
        · rw [if_neg hex] at h
          cases hrec : validNames rest with
          | error e =>
            rw [hrec] at h
            exact absurd h (by simp [Bind.bind, Except.bind])
          | ok tail =>
            rw [hrec] at h
            simp only [Bind.bind, Except.bind, Except.ok.injEq] at h
            subst h
            intro s' hs'
            rcases List.mem_cons.mp hs' with rfl | hmem
            · exact ⟨hs, Bool.not_eq_true _ ▸ hex⟩
            · exact ih tail hrec s' hmem

/-- C4: for every pair of input documents, every function name that gets a
table row (one row is rendered per element of `rowNames`) is a non-empty
string that does not start with `unknown_function`, does not contain
`(FAILED)` and is not `BENCHMARK_RUNNER_ERROR`; excluded names enter the
comparison surface nowhere. -/
theorem rowNames_excludes_malformed (mainResults prResults : List Json)
    (names : List String) (h : rowNames mainResults prResults = .ok names) :
    ∀ s ∈ names, s ≠ "" ∧ strStartsWith s "unknown_function" = false ∧
      strIncludes s "(FAILED)" = false ∧ s ≠ "BENCHMARK_RUNNER_ERROR" := by
  unfold rowNames at h
  cases h1 : collectNames mainResults with
  | error e => rw [h1] at h; exact absurd h (by simp [Bind.bind, Except.bind])
  | ok mainNames =>
  cases h2 : collectNames prResults with
  | error e => rw [h1, h2] at h; exact absurd h (by simp [Bind.bind, Except.bind])
  | ok prNames =>
  rw [h1, h2] at h
  simp only [Bind.bind, Except.bind] at h
  cases h3 : validNames (dedupBy nameEq [] (mainNames ++ prNames)) with
  | error e => rw [h3] at h; exact absurd h (by simp)
  | ok kept =>
  rw [h3] at h
  simp only [Except.ok.injEq] at h
  subst h
  intro s hs
  have hmem : s ∈ kept := (List.mem_insertionSort strLe).mp hs
  have hval := validNames_mem _ kept h3 s hmem
  refine ⟨hval.1, ?_, ?_, ?_⟩ <;>
    · have hex := hval.2
      simp only [isExcludedName, Bool.or_eq_false_iff, beq_eq_false_iff_ne, ne_eq] at hex
      first
        | exact hex.1.1
        | exact hex.1.2
        | exact hex.2

/-- Witness for C4 at a concrete document pair: placeholder names
(`unknown_function_1`, `BENCHMARK_RUNNER_ERROR`, a `(FAILED)` marker) are
dropped and the surviving name `transfer` passes every exclusion test. -/
theorem rowNames_excludes_malformed_witness :
    rowNames
        [Json.obj [("name", Json.str "transfer")],
          Json.obj [("name", Json.str "unknown_function_1")]]
        [Json.obj [("name", Json.str "BENCHMARK_RUNNER_ERROR")],
          Json.obj [("name", Json.str "mint (FAILED)")]] = .ok ["transfer"] ∧
      ("transfer" : String) ≠ "" ∧
        strStartsWith "transfer" "unknown_function" = false ∧
        strIncludes "transfer" "(FAILED)" = false ∧
        ("transfer" : String) ≠ "BENCHMARK_RUNNER_ERROR" :=
  ⟨rfl,
    rowNames_excludes_malformed
      [Json.obj [("name", Json.str "transfer")],
        Json.obj [("name", Json.str "unknown_function_1")]]
      [Json.obj [("name", Json.str "BENCHMARK_RUNNER_ERROR")],
        Json.obj [("name", Json.str "mint (FAILED)")]] ["transfer"] rfl "transfer"
      (by decide)⟩

/-- C5 counterexample: with contracts `Zebra` and `apple`, the rendered
section order is `apple` before `Zebra` — the source sorts contract names
with `localeCompare` (locale collation), not by code units — so the section
whose name has the smaller code units (`Zebra`) does *not* come first. -/
theorem sectionOrder_counterexample :
    sectionNames fsZebraApple stdInputs = ["apple", "Zebra"] ∧
      strLe "Zebra" "apple" ∧ ("Zebra" : String) ≠ "apple" ∧
      sectionNames fsZebraApple stdInputs ≠ ["Zebra", "apple"] :=
  ⟨by decide, by decide, by decide, by decide⟩

/-- C5 (amended): contract sections appear sorted by the `localeCompare`
collation (case-insensitive at the primary level, lower case first at the
case level — so `apple` precedes `Zebra`), and within each contract's table
the rows appear sorted by function name under code-unit lexicographic
order. -/
theorem sectionOrder_sorted :
    (∀ (fs : FileSystem) (inputs : ComparisonInputs),
        List.Sorted localeLe (sectionNames fs inputs)) ∧
      ∀ (mainResults prResults : List Json) (names : List String),
        rowNames mainResults prResults = .ok names → List.Sorted strLe names := by
  constructor
  · intro fs inputs
    exact List.Pairwise.map _ (fun a b h => h)
      (List.sorted_insertionSort pairLe
        (findBenchmarkPairs fs inputs.reportsDir inputs.baseSuffix inputs.prSuffix))
  · intro mainResults prResults names h
    unfold rowNames at h
    cases h1 : collectNames mainResults with
    | error e => rw [h1] at h; exact absurd h (by simp [Bind.bind, Except.bind])
    | ok mainNames =>
    cases h2 : collectNames prResults with
    | error e => rw [h1, h2] at h; exact absurd h (by simp [Bind.bind, Except.bind])
    | ok prNames =>
    rw [h1, h2] at h
    simp only [Bind.bind, Except.bind] at h
    cases h3 : validNames (dedupBy nameEq [] (mainNames ++ prNames)) with
    | error e => rw [h3] at h; exact absurd h (by simp)
    | ok kept =>
    rw [h3] at h
    simp only [Except.ok.injEq] at h
    subst h
    exact List.sorted_insertionSort strLe kept

/-- Witness for C5 (amended) at concrete inputs. -/
theorem sectionOrder_sorted_witness :
    List.Sorted localeLe (sectionNames fsZebraApple stdInputs) ∧
      List.Sorted strLe ["transfer"] :=
  ⟨sectionOrder_sorted.1 fsZebraApple stdInputs,
    sectionOrder_sorted.2 [Json.obj [("name", Json.str "transfer")]] [] ["transfer"] rfl⟩

/-- String concatenation is associative (componentwise list append). -/
theorem string_append_assoc (a b c : String) : a ++ b ++ c = a ++ (b ++ c) := by
  cases a with
  | mk da =>
    cases b with
    | mk db =>
      cases c with
      | mk dc => exact congrArg String.mk (List.append_assoc da db dc)

/-- C6 counterexample: for an existing but empty reports directory the run
returns the fixed no-pairs document, which does not begin with the
machine-readable marker comment. -/
theorem noPairsDocument_lacks_marker :
    runComparison fsEmptyDir stdInputs = .ok noPairsDocument ∧
      strStartsWith noPairsDocument "<!-- benchmark-diff -->" = false ∧
      ¬∃ rest, noPairsDocument = "<!-- benchmark-diff -->" ++ rest := by
  refine ⟨rfl, by decide, ?_⟩
  rintro ⟨rest, h⟩
  have hx := congrArg (fun s => s.data.head?) h
  have hx2 : some '#' = some '<' := hx
  exact absurd hx2 (by decide)

/-- C6 (amended): whenever at least one pair is discovered, the returned
document begins with the marker comment `<!-- benchmark-diff -->`; the
empty-pair-set document is the fixed no-pairs message without the marker. -/
theorem marker_prefix_when_pairs (fs : FileSystem) (inputs : ComparisonInputs)
    (doc : String)
    (hne : findBenchmarkPairs fs inputs.reportsDir inputs.baseSuffix inputs.prSuffix ≠ [])
    (hok : runComparison fs inputs = .ok doc) :
    ∃ rest, doc = "<!-- benchmark-diff -->" ++ rest := by
  unfold runComparison at hok
  rw [if_neg (by simpa using hne)] at hok
  simp only [Bind.bind] at hok
  cases hmap : (sortedBenchmarkPairs fs inputs).mapM
      (sectionLines fs.content inputs.threshold) with
  | error e => rw [hmap] at hok; exact absurd hok (by simp [Except.bind])
  | ok sections =>
  rw [hmap] at hok
  simp only [Except.bind, Except.ok.injEq] at hok
  subst hok
  refine ⟨"\n" ++ ("\n" ++ joinNL ("# Benchmark Comparison\n" :: sections.flatten)), ?_⟩
  calc joinNL ("<!-- benchmark-diff -->\n" :: "# Benchmark Comparison\n" ::
        sections.flatten)
      = ("<!-- benchmark-diff -->" ++ "\n") ++ "\n" ++
          joinNL ("# Benchmark Comparison\n" :: sections.flatten) := rfl
    _ = "<!-- benchmark-diff -->" ++
          ("\n" ++ ("\n" ++ joinNL ("# Benchmark Comparison\n" :: sections.flatten))) := by
        simp only [string_append_assoc]

/-- Witness for C6 (amended): the two-contract filesystem yields a document
starting with the marker. -/
theorem marker_prefix_when_pairs_witness :
    ∃ rest, docZA = "<!-- benchmark-diff -->" ++ rest :=
  marker_prefix_when_pairs fsZebraApple stdInputs docZA (by decide) rfl

/-- C7 counterexample: a parseable document whose `results` field is the
truthy non-array `5` makes the single-pair comparison throw (`.map` is not
a function), the exception escapes `runComparison`, and the other,
well-formed pair (`Good`) loses its section. -/
theorem tableGen_exception_counterexample :
    generateContractComparisonTable fsBadResults.content
        ⟨"Bad", "benchmarks/Bad_base.benchmark.json",
          "benchmarks/Bad_latest.benchmark.json"⟩ 10 = .error () ∧
      runComparison fsBadResults stdInputs = .error () ∧
      (⟨"Good", "benchmarks/Good_base.benchmark.json",
          "benchmarks/Good_latest.benchmark.json"⟩ : BenchmarkPair) ∈
        findBenchmarkPairs fsBadResults "benchmarks" "_base" "_latest" ∧
      (generateContractComparisonTable fsBadResults.content
          ⟨"Good", "benchmarks/Good_base.benchmark.json",
            "benchmarks/Good_latest.benchmark.json"⟩ 10).isOk = true :=
  ⟨rfl, rfl, by decide, rfl⟩

/-- If every element of a list maps to `.ok`, the whole `mapM` is `.ok`. -/
theorem mapM_ok_of_all_ok {α β : Type} (g : α → Except Unit β) (l : List α)
    (h : ∀ p ∈ l, ∃ s, g p = .ok s) : ∃ out, l.mapM g = .ok out := by
  induction l with
  | nil => exact ⟨[], rfl⟩
  | cons a rest ih =>
    obtain ⟨s, hs⟩ := h a (List.mem_cons_self a rest)
    obtain ⟨out, hout⟩ := ih (fun p hp => h p (List.mem_cons_of_mem a hp))
    refine ⟨s :: out, ?_⟩
    rw [List.mapM_cons, hs]
    simp only [Bind.bind, Except.bind]
    rw [hout]
    rfl

/-- C7 (amended): a missing file, a read/parse failure, or a falsy/missing
`results` field in either document degrades to an `.ok` placeholder string
for that pair, and when every discovered pair's comparison returns `.ok`
the whole run returns `.ok`.  (A truthy non-array `results` still throws,
per the counterexample.) -/
theorem tableGen_degrades_gracefully :
    (∀ (content : String → Option (Except String Json)) (pair : BenchmarkPair) (th : ℚ),
        (content pair.baseJsonPath = none ∨ content pair.prJsonPath = none ∨
          (∃ msg, content pair.baseJsonPath = some (.error msg)) ∨
          (∃ msg, content pair.prJsonPath = some (.error msg)) ∨
          (∃ mainData prData, content pair.baseJsonPath = some (.ok mainData) ∧
            content pair.prJsonPath = some (.ok prData) ∧
            (jsFalsy (some mainData) || jsFalsy (jsGetField mainData "results") ||
              jsFalsy (some prData) || jsFalsy (jsGetField prData "results")) = true)) →
        ∃ s, generateContractComparisonTable content pair th = .ok s) ∧
      ∀ (fs : FileSystem) (inputs : ComparisonInputs),
        (∀ p ∈ findBenchmarkPairs fs inputs.reportsDir inputs.baseSuffix inputs.prSuffix,
          ∃ s, generateContractComparisonTable fs.content p inputs.threshold = .ok s) →
        ∃ doc, runComparison fs inputs = .ok doc := by
  constructor
  · intro content pair th h
    unfold generateContractComparisonTable
    rcases h with hb | hp | ⟨msg, hb⟩ | ⟨msg, hp⟩ | ⟨mainData, prData, hb, hp, hfal⟩
    · rw [hb]
      cases hp2 : content pair.prJsonPath with
      | none => exact ⟨_, rfl⟩
      | some ep => cases ep <;> exact ⟨_, rfl⟩
    · rw [hp]
      cases hb2 : content pair.baseJsonPath with
      | none => exact ⟨_, rfl⟩
      | some eb => cases eb <;> exact ⟨_, rfl⟩
    · rw [hb]
      cases hp2 : content pair.prJsonPath with
      | none => exact ⟨_, rfl⟩
      | some ep => cases ep <;> exact ⟨_, rfl⟩
    · rw [hp]
      cases hb2 : content pair.baseJsonPath with
      | none => exact ⟨_, rfl⟩
      | some eb => cases eb <;> exact ⟨_, rfl⟩
    · rw [hb, hp]
      exact ⟨"*Skipping " ++ pair.contractName ++
        ": Invalid JSON structure (missing results array).*", by
          dsimp only
          rw [if_pos hfal]⟩
  · intro fs inputs hall
    unfold runComparison
    by_cases he :
        (findBenchmarkPairs fs inputs.reportsDir inputs.baseSuffix inputs.prSuffix).isEmpty
    · rw [if_pos he]; exact ⟨_, rfl⟩
    · rw [if_neg he]
      have hsec : ∀ p ∈ sortedBenchmarkPairs fs inputs,
          ∃ s, sectionLines fs.content inputs.threshold p = .ok s := by
        intro p hp
        rw [sortedBenchmarkPairs, List.mem_insertionSort] at hp
        obtain ⟨s, hs⟩ := hall p hp
        exact ⟨["## Contract: " ++ p.contractName ++ "\n", s, "\n"], by
          simp [sectionLines, hs, Bind.bind, Except.bind, pure, Except.pure]⟩
      obtain ⟨out, hout⟩ :=
        mapM_ok_of_all_ok (sectionLines fs.content inputs.threshold)
          (sortedBenchmarkPairs fs inputs) hsec
      refine ⟨joinNL ("<!-- benchmark-diff -->\n" :: "# Benchmark Comparison\n" ::
        out.flatten), ?_⟩
      simp only [Bind.bind]
      rw [hout]
      rfl

/-- Witness for C7 (amended): a parse failure degrades to a placeholder,
and a filesystem whose pairs all compare cleanly yields an `.ok` run. -/
theorem tableGen_degrades_gracefully_witness :
    (∃ s, generateContractComparisonTable fsParseFail.content
        ⟨"Tok", "benchmarks/Tok_base.benchmark.json",
          "benchmarks/Tok_latest.benchmark.json"⟩ 10 = .ok s) ∧
      ∃ doc, runComparison fsZebraApple stdInputs = .ok doc := by
  constructor
  · exact tableGen_degrades_gracefully.1 fsParseFail.content
      ⟨"Tok", "benchmarks/Tok_base.benchmark.json",
        "benchmarks/Tok_latest.benchmark.json"⟩ 10
      (Or.inr (Or.inr (Or.inl ⟨"Unexpected token", rfl⟩)))
  · refine tableGen_degrades_gracefully.2 fsZebraApple stdInputs ?_
    intro p hp
    have hpairs : findBenchmarkPairs fsZebraApple stdInputs.reportsDir
        stdInputs.baseSuffix stdInputs.prSuffix =
        [⟨"Zebra", "benchmarks/Zebra_base.benchmark.json",
            "benchmarks/Zebra_latest.benchmark.json"⟩,
          ⟨"apple", "benchmarks/apple_base.benchmark.json",
            "benchmarks/apple_latest.benchmark.json"⟩] := rfl
    rw [hpairs] at hp
    rcases List.mem_cons.mp hp with rfl | hp2
    · exact ⟨_, rfl⟩
    · rcases List.mem_cons.mp hp2 with rfl | hp3
      · exact ⟨_, rfl⟩
      · exact absurd hp3 (List.not_mem_nil _)

/-- `Char.toNat` is injective. -/
theorem char_toNat_inj (c d : Char) (h : c.toNat = d.toNat) : c = d := by
  have h2 := congrArg Char.ofNat h
  rwa [Char.ofNat_toNat, Char.ofNat_toNat] at h2

/-- The two collation-key passes jointly determine the character list. -/
theorem localeChars_inj (xs : List Char) : ∀ ys : List Char,
    xs.map (fun c => (if c.isUpper then c.toNat + 32 else c.toNat) + 2) =
      ys.map (fun c => (if c.isUpper then c.toNat + 32 else c.toNat) + 2) →
    xs.map (fun c => if c.isUpper then (1 : Nat) else 0) =
      ys.map (fun c => if c.isUpper then (1 : Nat) else 0) →
    xs = ys := by
  induction xs with
  | nil =>
    intro ys h1 _
    cases ys with
    | nil => rfl
    | cons y ys => exact absurd h1 (by simp)
  | cons x xs ih =>
    intro ys h1 h2
    cases ys with
    | nil => exact absurd h1 (by simp)
    | cons y ys =>
      simp only [List.map_cons, List.cons.injEq] at h1 h2
      have hxy : x = y := by
        by_cases hx : x.isUpper = true <;> by_cases hy : y.isUpper = true
        · have h := h1.1
          rw [if_pos hx, if_pos hy] at h
          exact char_toNat_inj x y (by omega)
        · have h := h2.1
          rw [if_pos hx, if_neg hy] at h
          exact absurd h (by decide)
        · have h := h2.1
          rw [if_neg hx, if_pos hy] at h
          exact absurd h (by decide)
        · have h := h1.1
          rw [if_neg hx, if_neg hy] at h
          exact char_toNat_inj x y (by omega)
      rw [hxy, ih ys h1.2 h2.2]

/-- The collation key determines the string: `localeCompare` equivalence is
string equality (for the modelled collation). -/
theorem localeKey_inj (a b : String) (h : localeKey a = localeKey b) : a = b := by
  unfold localeKey at h
  have hlen : a.data.length = b.data.length := by
    have h2 := congrArg List.length h
    simp only [List.length_append, List.length_map] at h2
    omega
  have hsplit := List.append_inj h (by simp [hlen])
  have hdata := localeChars_inj a.data b.data hsplit.1 hsplit.2
  cases a with
  | mk da =>
    cases b with
    | mk db => exact congrArg String.mk hdata

/-- Antisymmetry of the modelled `localeCompare` order. -/
theorem localeLe_antisymm (a b : String) (h1 : localeLe a b) (h2 : localeLe b a) :
    a = b :=
  localeKey_inj a b (le_antisymm h1 h2)

/-- Every discovered pair is determined by its contract name: the two paths
are rebuilt from the name, the directory and the two suffixes. -/
theorem findBenchmarkPairs_shape (fs : FileSystem) (dir bs ps : String)
    (p : BenchmarkPair) (hp : p ∈ findBenchmarkPairs fs dir bs ps) :
    p = ⟨p.contractName, pathJoin dir (p.contractName ++ (bs ++ ".benchmark.json")),
      pathJoin dir (String.mk (p.contractName.data ++ (ps ++ ".benchmark.json").data))⟩ := by
  unfold findBenchmarkPairs at hp
  cases hl : fs.listing with
  | none => rw [hl] at hp; exact absurd hp (List.not_mem_nil p)
  | some files =>
  rw [hl] at hp
  obtain ⟨file, _, hf⟩ := List.mem_filterMap.mp hp
  dsimp only at hf
  by_cases hend : strEndsWith file (ps ++ ".benchmark.json") = true
  · rw [if_pos hend] at hf
    by_cases hex : existsSync fs (pathJoin dir
        (strDropRight file (ps ++ ".benchmark.json").data.length ++
          (bs ++ ".benchmark.json"))) = true
    · rw [if_pos hex] at hf
      obtain rfl := (Option.some.injEq _ _).mp hf
      have hsuffix : (ps ++ ".benchmark.json").data <:+ file.data :=
        List.isSuffixOf_iff_suffix.mp hend
      obtain ⟨pre, hpre⟩ := hsuffix
      have hdrop : (strDropRight file (ps ++ ".benchmark.json").data.length).data = pre := by
        show (file.data.take (file.data.length - (ps ++ ".benchmark.json").data.length)) = pre
        rw [← hpre, List.length_append]
        have : pre.length + (ps ++ ".benchmark.json").data.length -
            (ps ++ ".benchmark.json").data.length = pre.length := by omega
        rw [this]
        exact List.take_left pre _
      have hfile : file = String.mk
          ((strDropRight file (ps ++ ".benchmark.json").data.length).data ++
            (ps ++ ".benchmark.json").data) := by
        rw [hdrop]
        cases file with
        | mk df => exact congrArg String.mk hpre.symm
      refine congrArg (fun f => (⟨strDropRight file (ps ++ ".benchmark.json").data.length,
        pathJoin dir (strDropRight file (ps ++ ".benchmark.json").data.length ++
          (bs ++ ".benchmark.json")), pathJoin dir f⟩ : BenchmarkPair)) hfile
    · rw [if_neg hex] at hf
      exact absurd hf (by simp)
  · rw [if_neg hend] at hf
    exact absurd hf (by simp)

/-- Two sorted permutations of each other are equal, given antisymmetry on
the members of the two lists. -/
theorem eq_of_perm_of_sorted_of_anti {α : Type} {r : α → α → Prop} (l₁ : List α) :
    ∀ l₂ : List α, l₁.Perm l₂ → l₁.Pairwise r → l₂.Pairwise r →
      (∀ a ∈ l₁, ∀ b ∈ l₂, r a b → r b a → a = b) → l₁ = l₂ := by
  induction l₁ with
  | nil =>
    intro l₂ hp _ _ _
    exact hp.nil_eq
  | cons a t ih =>
    intro l₂ hp hs₁ hs₂ anti
    have ha : a ∈ l₂ := hp.subset (List.mem_cons_self a t)
    obtain ⟨u₂, v₂, rfl⟩ := List.append_of_mem ha
    have hp' : t.Perm (u₂ ++ v₂) := (List.perm_cons a).1 (hp.trans List.perm_middle)
    have hsub : (u₂ ++ v₂).Sublist (u₂ ++ a :: v₂) :=
      List.Sublist.append_left (List.sublist_cons_self a v₂) u₂
    obtain rfl := ih (u₂ ++ v₂) hp' (List.Pairwise.of_cons hs₁) (hs₂.sublist hsub)
      (fun x hx y hy hxy hyx =>
        anti x (List.mem_cons_of_mem a hx) y (hsub.mem hy) hxy hyx)
    have hu : ∀ x ∈ u₂, x = a := by
      intro x hx
      have hxa : r x a :=
        (List.pairwise_append.mp hs₂).2.2 x hx a (List.mem_cons_self a v₂)
      have hax : r a x :=
        List.rel_of_pairwise_cons hs₁ (List.mem_append.mpr (Or.inl hx))
      exact anti x (List.mem_cons_of_mem a (List.mem_append.mpr (Or.inl hx))) a
        (by simp) hxa hax
    obtain ⟨n, rfl⟩ : ∃ n, u₂ = List.replicate n a :=
      ⟨u₂.length, List.eq_replicate_of_mem hu⟩
    calc a :: (List.replicate n a ++ v₂)
        = (a :: List.replicate n a) ++ v₂ := rfl
      _ = List.replicate (n + 1) a ++ v₂ := by rw [List.replicate_succ]
      _ = (List.replicate n a ++ [a]) ++ v₂ := by rw [List.replicate_succ']
      _ = List.replicate n a ++ a :: v₂ := by simp

/-- C8: pair discovery and the final document are independent of the order
in which `readdir` returns directory entries: for two listings that are
permutations of each other (over the same files), the discovered pair sets
are equal and `runComparison` returns the identical result.  (Determinism
for fixed inputs is intrinsic: the embedding is a pure function.) -/
theorem comparison_listing_order_independent (l₁ l₂ : List String)
    (content : String → Option (Except String Json)) (inputs : ComparisonInputs)
    (hperm : l₁.Perm l₂) :
    (∀ p, p ∈ findBenchmarkPairs ⟨some l₁, content⟩ inputs.reportsDir inputs.baseSuffix
          inputs.prSuffix ↔
        p ∈ findBenchmarkPairs ⟨some l₂, content⟩ inputs.reportsDir inputs.baseSuffix
          inputs.prSuffix) ∧
      runComparison ⟨some l₁, content⟩ inputs = runComparison ⟨some l₂, content⟩ inputs := by
  have hpairs : (findBenchmarkPairs ⟨some l₁, content⟩ inputs.reportsDir inputs.baseSuffix
      inputs.prSuffix).Perm (findBenchmarkPairs ⟨some l₂, content⟩ inputs.reportsDir
        inputs.baseSuffix inputs.prSuffix) := by
    unfold findBenchmarkPairs
    exact hperm.filterMap _
  refine ⟨fun p => hpairs.mem_iff, ?_⟩
  have hsp : sortedBenchmarkPairs ⟨some l₁, content⟩ inputs =
      sortedBenchmarkPairs ⟨some l₂, content⟩ inputs := by
    apply eq_of_perm_of_sorted_of_anti
    · exact ((List.perm_insertionSort pairLe _).trans hpairs).trans
        (List.perm_insertionSort pairLe _).symm
    · exact List.sorted_insertionSort pairLe _
    · exact List.sorted_insertionSort pairLe _
    · intro a ha b hb hab hba
      have ha2 : a ∈ findBenchmarkPairs ⟨some l₁, content⟩ inputs.reportsDir
          inputs.baseSuffix inputs.prSuffix := (List.mem_insertionSort pairLe).mp ha
      have hb2 : b ∈ findBenchmarkPairs ⟨some l₂, content⟩ inputs.reportsDir
          inputs.baseSuffix inputs.prSuffix := (List.mem_insertionSort pairLe).mp hb
      have hname : a.contractName = b.contractName := localeLe_antisymm _ _ hab hba
      rw [findBenchmarkPairs_shape _ _ _ _ a ha2, findBenchmarkPairs_shape _ _ _ _ b hb2,
        hname]
  by_cases hn : findBenchmarkPairs ⟨some l₁, content⟩ inputs.reportsDir inputs.baseSuffix
      inputs.prSuffix = []
  · have hn2 : findBenchmarkPairs ⟨some l₂, content⟩ inputs.reportsDir inputs.baseSuffix
        inputs.prSuffix = [] := ((hn ▸ hpairs).nil_eq).symm
    unfold runComparison
    rw [if_pos (by simp [hn]), if_pos (by simp [hn2])]
  · have hn2 : ¬findBenchmarkPairs ⟨some l₂, content⟩ inputs.reportsDir inputs.baseSuffix
        inputs.prSuffix = [] := by
      intro h
      rw [h] at hpairs
      exact hn hpairs.eq_nil
    unfold runComparison
    rw [if_neg (by simp [hn]), if_neg (by simp [hn2]), hsp]

/-- Witness for C8: the two-contract filesystem with its listing reversed
yields the same pair set and the identical document. -/
theorem comparison_listing_order_independent_witness :
    (∀ p, p ∈ findBenchmarkPairs ⟨some ["Zebra_latest.benchmark.json",
            "apple_latest.benchmark.json", "Zebra_base.benchmark.json",
            "apple_base.benchmark.json"], fsZebraApple.content⟩ stdInputs.reportsDir
          stdInputs.baseSuffix stdInputs.prSuffix ↔
        p ∈ findBenchmarkPairs ⟨some ["apple_base.benchmark.json",
            "Zebra_base.benchmark.json", "apple_latest.benchmark.json",
            "Zebra_latest.benchmark.json"], fsZebraApple.content⟩ stdInputs.reportsDir
          stdInputs.baseSuffix stdInputs.prSuffix) ∧
      runComparison ⟨some ["Zebra_latest.benchmark.json", "apple_latest.benchmark.json",
          "Zebra_base.benchmark.json", "apple_base.benchmark.json"],
        fsZebraApple.content⟩ stdInputs =
        runComparison ⟨some ["apple_base.benchmark.json", "Zebra_base.benchmark.json",
            "apple_latest.benchmark.json", "Zebra_latest.benchmark.json"],
          fsZebraApple.content⟩ stdInputs :=
  comparison_listing_order_independent
    ["Zebra_latest.benchmark.json", "apple_latest.benchmark.json",
      "Zebra_base.benchmark.json", "apple_base.benchmark.json"]
    ["apple_base.benchmark.json", "Zebra_base.benchmark.json",
      "apple_latest.benchmark.json", "Zebra_latest.benchmark.json"]
    fsZebraApple.content stdInputs (by decide)
